import Mathlib

/-!
Shallow embedding of `src/code/MCMC.py` (class `MCMC`: methods `sample`,
`acceptreject`, `SSqcalc`).

Conventions of the embedding:

* Python floats are modelled by exact rationals `ℚ`; the float literals
  `1e-6`, `0.5`, `0.01` and `2.38` of the source become the rationals
  `1/1000000`, `1/2`, `1/100` and `238/100`.
* The code path exercised by the source is one-dimensional: `qstart` is a
  scalar, `qparams` is a `1 × n` array whose columns we keep as a
  `List ℚ` (the Chain), `qstart_limits` is the single pair
  `(qpriors[1], qpriors[2])`, and all matrices are `1 × 1`.
* `qpriors` itself is a container the sampler only consults through
  `qpriors[1]` (lower), `qpriors[2]` (upper) and `len(qpriors)`
  (= `len(qpriors.keys())`); the embedding keeps the two bounds and the
  container length `nqp` as separate inputs.
* Random draws are oracle functions supplied in the environment:
  `propose i mean V` stands for `np.random.multivariate_normal(mean, V)` at
  iteration `i`, `logu i` stands for `np.log(np.random.rand(1))[0]`, and
  `gdraw i a s` stands for `gamma.rvs(a, scale=s, size=1)[0]`.
* `np.linalg.inv` on the `1 × 1` matrix `[[x]]` raises `LinAlgError`
  exactly when `x = 0`; the initialization is therefore `Option`-valued.
* `np.linalg.cholesky` on the `1 × 1` matrix `[[c]]` succeeds exactly when
  `0 < c`, returning `[[√c]]`.  Since `√c` is irrational in general, the
  covariance slot of the state is kept symbolically: `CovState.start v` is
  the rational matrix `[[v]]` (`Vstart`), and `CovState.chol c` is the
  Cholesky factor `[[Real.sqrt c]]` that the source stores in `Vold` after
  a successful adaptation.  The numeric value is recovered in theorem
  statements through `Real.sqrt`.
* The model (`self.model`) is a stateful collaborator; its observable
  state is its calibrated parameter `Dc`.  Its evaluation
  (`evaluate()[1][:, 0]`, resp. `rom_evaluate(...)[1][:, 0]`) is the pure
  oracle `eval : ℚ → List ℚ` applied to the current `Dc`.  Every
  invocation of the forward model is recorded in `evalLog` so that
  frame-effect claims about evaluator calls can be stated.
-/

/-- The covariance slot `Vold` of the sampler: `start v` is the rational
initial matrix `[[v]]`; `chol c` is the Cholesky factor `[[Real.sqrt c]]`
of the scaled empirical covariance `[[c]]`, which is what line 152–153 of
the source stores after a successful `np.linalg.cholesky`. -/
inductive CovState where
  | start (v : ℚ)
  | chol (c : ℚ)
deriving DecidableEq

/-- Positive-definiteness of the (`1 × 1`) matrix a `CovState` denotes:
`start v` denotes `[[v]]` and `chol c` denotes `[[Real.sqrt c]]`. -/
def CovPD : CovState → Prop
  | CovState.start v => 0 < (v : ℝ)
  | CovState.chol c => 0 < Real.sqrt (c : ℝ)

/-- Observable state of the forward model: the calibrated parameter
`model.Dc`, plus a log of every parameter value the forward model has been
evaluated at (for frame-effect claims). -/
structure Model where
  Dc : ℚ
  evalLog : List ℚ
deriving DecidableEq

/-- The inputs of one call of `MCMC.sample`: the constructor arguments of
`MCMC.__init__` together with the oracle functions standing for the
forward model and the three random-number streams. -/
structure Env where
  eval : ℚ → List ℚ
  data : List ℚ
  lower : ℚ
  upper : ℚ
  nqp : ℕ
  qstart : ℚ
  modelDc0 : ℚ
  nsamples : ℕ
  adapt_interval : ℕ
  propose : ℕ → ℚ → CovState → ℚ
  logu : ℕ → ℚ
  gdraw : ℕ → ℚ → ℚ → ℚ

/-- `n0 = 0.01`, the prior pseudo-count set in `MCMC.__init__` (line 84). -/
def n0 : ℚ := 1 / 100

/-- Sum of squared residuals between a model output and the data:
`np.sum((acc[:, 0].reshape(1, -1) - self.data)**2)` (line 198). -/
def SSqOf (env : Env) (q : ℚ) : ℚ :=
  (List.zipWith (fun a b => (a - b) ^ 2) (env.eval q) env.data).sum

/-- `MCMC.SSqcalc` (lines 189–200): overwrite `model.Dc` with the
candidate, evaluate the forward model at it, return the sum of squared
residuals.  The model state is threaded explicitly. -/
def SSqcalc (env : Env) (m : Model) (q : ℚ) : Model × ℚ :=
  ({ Dc := q, evalLog := m.evalLog ++ [q] }, SSqOf env q)

/-- `MCMC.acceptreject` (lines 166–187).  `np.clip(x, -np.inf, 0)` is
`min x 0`; the uniform draw enters through its logarithm `logu i`. -/
def acceptreject (env : Env) (i : ℕ) (m : Model) (q_new SSqprev std2c : ℚ) :
    (Bool × ℚ) × Model :=
  if env.lower < q_new ∧ q_new < env.upper then
    let r := SSqcalc env m q_new
    let accept_prob := min (((1 : ℚ) / 2) * (SSqprev - r.2) / std2c) 0
    if env.logu i < accept_prob then ((true, r.2), r.1)
    else ((false, SSqprev), r.1)
  else ((false, SSqprev), m)

/-- Mean of a list of rationals. -/
def listMean (l : List ℚ) : ℚ := l.sum / (l.length : ℚ)

/-- `np.cov` of a `1 × n` array: the empirical variance of the entries
with denominator `n - 1` (numpy default `ddof = 1`). -/
def sampleVar (l : List ℚ) : ℚ :=
  (l.map (fun x => (x - listMean l) ^ 2)).sum / ((l.length : ℚ) - 1)

/-- The last `k` entries of a list: the slice `l[-k:]` for `0 < k`. -/
def lastN (k : ℕ) (l : List ℚ) : List ℚ := l.drop (l.length - k)

/-- The adaptation scaling `2.38**2 / len(self.qpriors.keys())`
(line 149). -/
def scaleC (env : Env) : ℚ := ((238 : ℚ) / 100) ^ 2 / (env.nqp : ℚ)

/-- State of the sampling loop of `MCMC.sample`. -/
structure LoopState where
  chain : List ℚ
  Vold : CovState
  SSqprev : ℚ
  std2 : List ℚ
  iaccept : ℕ
  model : Model
deriving DecidableEq

/-- The proposal drawn at iteration `i` (line 120):
`np.random.multivariate_normal(qparams[:, -1], Vold)`. -/
def proposalAt (env : Env) (i : ℕ) (s : LoopState) : ℚ :=
  env.propose i (s.chain.getLastD 0) s.Vold

/-- The boolean returned by `acceptreject` at iteration `i`. -/
def stepAccept (env : Env) (i : ℕ) (s : LoopState) : Bool :=
  (acceptreject env i s.model (proposalAt env i s) s.SSqprev
    (s.std2.getLastD 0)).1.1

/-- One iteration of the sampling loop (lines 118–155): propose,
accept/reject, extend the chain, draw the next noise variance, and adapt
the proposal covariance when `(isample + 1) % adapt_interval == 0`. -/
def step (env : Env) (i : ℕ) (s : LoopState) : LoopState :=
  let q_new := proposalAt env i s
  let ar := acceptreject env i s.model q_new s.SSqprev (s.std2.getLastD 0)
  let accept := ar.1.1
  let SSqnext := ar.1.2
  let chain2 := s.chain ++ [if accept then q_new else s.chain.getLastD 0]
  let iacc2 := s.iaccept + (if accept then 1 else 0)
  let aval := ((1 : ℚ) / 2) * (n0 + (env.data.length : ℚ))
  let bval := ((1 : ℚ) / 2) * (n0 * s.std2.getLastD 0 + SSqnext)
  let std2b := s.std2 ++ [1 / env.gdraw i aval (1 / bval)]
  let Vnext :=
    if (i + 1) % env.adapt_interval == 0 then
      let C := scaleC env * sampleVar (lastN env.adapt_interval chain2)
      if 0 < C then CovState.chol C else s.Vold
    else s.Vold
  { chain := chain2, Vold := Vnext, SSqprev := SSqnext, std2 := std2b,
    iaccept := iacc2, model := ar.2 }

/-- The sensitivity column `X` of line 107:
`(acc_dq - acc) / (self.model.Dc * 1e-6)`, where `self.model.Dc` has
already been multiplied by `(1 + 1e-6)` on line 94. -/
def sensXOf (env : Env) : List ℚ :=
  List.zipWith
    (fun a b => (a - b) / (env.modelDc0 * (1 + 1 / 1000000) * (1 / 1000000)))
    (env.eval (env.modelDc0 * (1 + 1 / 1000000))) (env.eval env.modelDc0)

/-- The `1 × 1` matrix `np.dot(X.T, X)` of line 108: the sum of the
squares of the sensitivity column. -/
def xtxOf (env : Env) : ℚ := ((sensXOf env).map (fun x => x ^ 2)).sum

/-- The initial noise variance of line 104:
`np.sum((acc - self.data)**2).item() / (acc.shape[1] - len(self.qpriors))`. -/
def std2initOf (env : Env) : ℚ :=
  (List.zipWith (fun a b => (a - b) ^ 2) (env.eval env.modelDc0) env.data).sum /
    (((env.eval env.modelDc0).length : ℚ) - (env.nqp : ℚ))

/-- Lines 90–116 of `MCMC.sample`: the two sensitivity evaluations (the
second after `self.model.Dc *= (1 + 1e-6)`), the initial noise variance,
`Vstart = std2[-1] * inv(X^T X)` (which raises, i.e. returns `none`,
exactly when `X^T X` is the zero `1 × 1` matrix), and the initial loop
state seeded by `SSqprev = SSqcalc(qparams)`. -/
def initState (env : Env) : Option LoopState :=
  let dcPert := env.modelDc0 * (1 + 1 / 1000000)
  if xtxOf env = 0 then none
  else
    let Vstart := std2initOf env * (xtxOf env)⁻¹
    let m0 : Model := { Dc := dcPert, evalLog := [env.modelDc0, dcPert] }
    let r := SSqcalc env m0 env.qstart
    some { chain := [env.qstart], Vold := CovState.start Vstart,
           SSqprev := r.2, std2 := [std2initOf env], iaccept := 0,
           model := r.1 }

/-- Iterations `0, 1, …, n - 1` of the sampling loop, in order. -/
def runSteps (env : Env) : ℕ → LoopState → LoopState
  | 0, s => s
  | n + 1, s => step env n (runSteps env n s)

/-- The loop state after the first `i` iterations (`none` when
initialization raised). -/
def stateAt (env : Env) (i : ℕ) : Option LoopState :=
  (initState env).map (runSteps env i)

/-- The loop state at the end of `MCMC.sample`. -/
def sampleState (env : Env) : Option LoopState :=
  stateAt env env.nsamples

/-- `self.nburn = int(nsamples / 2)` (line 79). -/
def nburn (env : Env) : ℕ := env.nsamples / 2

/-- The outputs of `MCMC.sample` (lines 157–164): after the loop, line
158 prints `iaccept / self.nsamples`, an integer division that raises
`ZeroDivisionError` when `nsamples = 0`, so the run returns `none` then;
otherwise the returned `qparams[:, nburn:]` and the trimmed
`self.std2[nburn:]`.  `none` also when initialization raised. -/
def sample (env : Env) : Option (List ℚ × List ℚ) :=
  (sampleState env).bind
    (fun s =>
      if env.nsamples = 0 then none
      else some (s.chain.drop (nburn env), s.std2.drop (nburn env)))

/-- The candidate covariance computed at an adaptation checkpoint
(line 149): `2.38**2 / len(qpriors.keys()) * np.cov(qparams[:, -adapt_interval:])`. -/
def adaptC (env : Env) (l : List ℚ) : ℚ :=
  scaleC env * sampleVar (lastN env.adapt_interval l)

/-- The sensitivity column as the claim states it: the output difference
divided by `q0 * 1e-6`, where `q0` is the starting parameter value
(formalizes the claim wording; the source divides by the already
perturbed `model.Dc * 1e-6` instead). -/
def sensX_claim (env : Env) : List ℚ :=
  List.zipWith (fun a b => (a - b) / (env.qstart * (1 / 1000000)))
    (env.eval (env.qstart * (1 + 1 / 1000000))) (env.eval env.qstart)

/-- The initial noise variance as the claim states it:
`sum((acc0 - data)^2) / (n_output - d)` with `d = 1` calibrated parameter
(formalizes the claim wording; the source divides by
`n_output - len(qpriors)` instead). -/
def std2init_claim (env : Env) : ℚ :=
  (List.zipWith (fun a b => (a - b) ^ 2) (env.eval env.qstart) env.data).sum /
    (((env.eval env.qstart).length : ℚ) - (1 : ℚ))

/-- Concrete test environment: model output `[q, 1, 1, 1, 1]` at
parameter `q`, data `[0, 1, 1, 1, 1]`, bounds `(-10, 10)`, a three-entry
prior container, and an out-of-bounds constant proposal stream. -/
def envW : Env where
  eval := fun q => [q, 1, 1, 1, 1]
  data := [0, 1, 1, 1, 1]
  lower := -10
  upper := 10
  nqp := 3
  qstart := 0
  modelDc0 := 1
  nsamples := 2
  adapt_interval := 10
  propose := fun _ _ _ => 50
  logu := fun _ => -100
  gdraw := fun _ _ _ => 2

/-- Variant of `envW` whose proposals are in bounds. -/
def envA : Env := { envW with propose := fun _ _ _ => 5 }

/-- Variant of `envW` with adaptation every 2 iterations. -/
def envC2 : Env := { envW with adapt_interval := 2 }

/-- Variant of `envW` that accepts the in-bounds proposal `6` at
iteration 2 and adapts every 3 iterations, so that the window at the
first checkpoint is `[0, 0, 6]`. -/
def envX : Env :=
  { envW with
    nsamples := 4
    adapt_interval := 3
    propose := fun i _ _ => if i = 2 then 6 else 50 }

/-- Variant of `envW` whose chain start coincides with the model start,
isolating the denominator of the sensitivity column. -/
def envY : Env := { envW with qstart := 1 }

/-- Variant of `envW` whose starting value `5` lies outside the bounds
`(1, 2)`. -/
def envZ : Env := { envW with qstart := 5, lower := 1, upper := 2 }

/-- Variant of `envW` whose in-bounds proposal `5` is always rejected by
the acceptance test (`logu = 0` and the log-ratio is negative), so the
last evaluated candidate is a rejected proposal. -/
def envR : Env := { envW with propose := fun _ _ _ => 5, logu := fun _ => 0 }

/-- A concrete loop state used to instantiate the per-iteration
theorems. -/
def sA : LoopState where
  chain := [0]
  Vold := CovState.start 1
  SSqprev := 0
  std2 := [1/2]
  iaccept := 0
  model := { Dc := 0, evalLog := [0] }

/-- The loop state produced by `initState envW` (checked by kernel
evaluation in the C6 witness). -/
def sInit : LoopState where
  chain := [0]
  Vold := CovState.start (1000002000001 / 2000000000000)
  SSqprev := 0
  std2 := [1/2]
  iaccept := 0
  model := { Dc := 0, evalLog := [1, 1000001/1000000, 0] }

lemma getLastD_concat' (l : List ℚ) (x d : ℚ) : (l ++ [x]).getLastD d = x := by
  simp [List.getLastD_concat]

lemma mem_getLastD (l : List ℚ) (d : ℚ) (h : l ≠ []) : l.getLastD d ∈ l := by
  induction l generalizing d with
  | nil => exact absurd rfl h
  | cons a as ih =>
    cases as with
    | nil => simp [List.getLastD]
    | cons b bs => simpa [List.getLastD] using Or.inr (ih a (by simp))

lemma acceptreject_spec (env : Env) (i : ℕ) (m : Model) (q ssq v : ℚ) :
    acceptreject env i m q ssq v =
      if env.lower < q ∧ q < env.upper then
        (if env.logu i < min (((1 : ℚ) / 2) * (ssq - SSqOf env q) / v) 0
         then ((true, SSqOf env q), { Dc := q, evalLog := m.evalLog ++ [q] })
         else ((false, ssq), { Dc := q, evalLog := m.evalLog ++ [q] }))
      else ((false, ssq), m) := rfl

lemma step_spec (env : Env) (i : ℕ) (s : LoopState) :
    step env i s =
      { chain := s.chain ++ [if (acceptreject env i s.model (proposalAt env i s) s.SSqprev (s.std2.getLastD 0)).1.1 then proposalAt env i s else s.chain.getLastD 0],
        Vold := (if (i + 1) % env.adapt_interval == 0 then
          (if 0 < scaleC env * sampleVar (lastN env.adapt_interval (s.chain ++ [if (acceptreject env i s.model (proposalAt env i s) s.SSqprev (s.std2.getLastD 0)).1.1 then proposalAt env i s else s.chain.getLastD 0]))
           then CovState.chol (scaleC env * sampleVar (lastN env.adapt_interval (s.chain ++ [if (acceptreject env i s.model (proposalAt env i s) s.SSqprev (s.std2.getLastD 0)).1.1 then proposalAt env i s else s.chain.getLastD 0])))
           else s.Vold)
          else s.Vold),
        SSqprev := (acceptreject env i s.model (proposalAt env i s) s.SSqprev (s.std2.getLastD 0)).1.2,
        std2 := s.std2 ++ [1 / env.gdraw i (((1 : ℚ) / 2) * (n0 + (env.data.length : ℚ))) (1 / (((1 : ℚ) / 2) * (n0 * s.std2.getLastD 0 + (acceptreject env i s.model (proposalAt env i s) s.SSqprev (s.std2.getLastD 0)).1.2)))],
        iaccept := s.iaccept + (if (acceptreject env i s.model (proposalAt env i s) s.SSqprev (s.std2.getLastD 0)).1.1 then 1 else 0),
        model := (acceptreject env i s.model (proposalAt env i s) s.SSqprev (s.std2.getLastD 0)).2 } := rfl

lemma acceptreject_true_bounds (env : Env) (i : ℕ) (m : Model) (q ssq v : ℚ)
    (h : (acceptreject env i m q ssq v).1.1 = true) :
    env.lower < q ∧ q < env.upper := by
  by_contra hc
  rw [acceptreject_spec, if_neg hc] at h
  simp at h

lemma acceptreject_false_SSq (env : Env) (i : ℕ) (m : Model) (q ssq v : ℚ)
    (h : (acceptreject env i m q ssq v).1.1 = false) :
    (acceptreject env i m q ssq v).1.2 = ssq := by
  rw [acceptreject_spec] at h ⊢
  split_ifs at h ⊢ <;> simp_all

lemma acceptreject_true_SSq (env : Env) (i : ℕ) (m : Model) (q ssq v : ℚ)
    (h : (acceptreject env i m q ssq v).1.1 = true) :
    (acceptreject env i m q ssq v).1.2 = SSqOf env q := by
  rw [acceptreject_spec] at h ⊢
  split_ifs at h ⊢ <;> simp_all

lemma covPD_ite (V : CovState) (C : ℚ) (h : CovPD V) :
    CovPD (if 0 < C then CovState.chol C else V) := by
  split_ifs with hC
  · show 0 < Real.sqrt _
    exact Real.sqrt_pos.mpr (by exact_mod_cast hC)
  · exact h

lemma initState_eq (env : Env) (s : LoopState) (h : initState env = some s) :
    s = { chain := [env.qstart],
          Vold := CovState.start (std2initOf env * (xtxOf env)⁻¹),
          SSqprev := SSqOf env env.qstart,
          std2 := [std2initOf env],
          iaccept := 0,
          model := { Dc := env.qstart,
                     evalLog := [env.modelDc0,
                       env.modelDc0 * (1 + 1 / 1000000), env.qstart] } } := by
  unfold initState at h
  by_cases h0 : xtxOf env = 0
  · rw [if_pos h0] at h
    exact absurd h (by simp)
  · rw [if_neg h0] at h
    exact (Option.some.inj h).symm

lemma step_chain_length (env : Env) (i : ℕ) (s : LoopState) :
    (step env i s).chain.length = s.chain.length + 1 := by
  simp [step_spec]

lemma step_std2_length (env : Env) (i : ℕ) (s : LoopState) :
    (step env i s).std2.length = s.std2.length + 1 := by
  simp [step_spec]

lemma runSteps_chain_length (env : Env) (n : ℕ) (s : LoopState) :
    (runSteps env n s).chain.length = s.chain.length + n := by
  induction n with
  | zero => rfl
  | succ n ih =>
    show (step env n (runSteps env n s)).chain.length = _
    rw [step_chain_length, ih]
    omega

lemma runSteps_std2_length (env : Env) (n : ℕ) (s : LoopState) :
    (runSteps env n s).std2.length = s.std2.length + n := by
  induction n with
  | zero => rfl
  | succ n ih =>
    show (step env n (runSteps env n s)).std2.length = _
    rw [step_std2_length, ih]
    omega

lemma chain_bounds_step (env : Env) (i : ℕ) (s : LoopState)
    (h : ∀ x ∈ s.chain, env.lower < x ∧ x < env.upper) (hne : s.chain ≠ []) :
    (∀ x ∈ (step env i s).chain, env.lower < x ∧ x < env.upper)
    ∧ (step env i s).chain ≠ [] := by
  rw [step_spec]
  constructor
  · show ∀ x ∈ s.chain ++ [_], _
    intro x hx
    rcases List.mem_append.mp hx with hx | hx
    · exact h x hx
    · have hx2 := List.mem_singleton.mp hx
      subst hx2
      cases hacc : (acceptreject env i s.model (proposalAt env i s) s.SSqprev
          (s.std2.getLastD 0)).1.1 with
      | true =>
        simp only [hacc, if_true]
        exact acceptreject_true_bounds env i s.model _ _ _ hacc
      | false =>
        simp only [hacc, Bool.false_eq_true, if_false]
        exact h _ (mem_getLastD s.chain 0 hne)
  · simp

lemma chain_bounds_runSteps (env : Env) (n : ℕ) (s : LoopState)
    (h : ∀ x ∈ s.chain, env.lower < x ∧ x < env.upper) (hne : s.chain ≠ []) :
    ∀ x ∈ (runSteps env n s).chain, env.lower < x ∧ x < env.upper := by
  induction n with
  | zero => exact h
  | succ n ih =>
    have hne2 : (runSteps env n s).chain ≠ [] := by
      have h1 := runSteps_chain_length env n s
      have h2 : 0 < s.chain.length := List.length_pos.mpr hne
      refine List.length_pos.mp ?_
      rw [h1]
      omega
    exact (chain_bounds_step env n (runSteps env n s) ih hne2).1

lemma modelDc_runSteps (env : Env) (n : ℕ) (s : LoopState)
    (h : s.model.Dc = s.model.evalLog.getLastD 0) (hne : s.model.evalLog ≠ [])
    (hb : s.model.Dc = env.qstart
      ∨ (env.lower < s.model.Dc ∧ s.model.Dc < env.upper)) :
    ((runSteps env n s).model.Dc = (runSteps env n s).model.evalLog.getLastD 0
      ∧ (runSteps env n s).model.evalLog ≠ [])
    ∧ ((runSteps env n s).model.Dc = env.qstart
      ∨ (env.lower < (runSteps env n s).model.Dc
        ∧ (runSteps env n s).model.Dc < env.upper)) := by
  induction n with
  | zero => exact ⟨⟨h, hne⟩, hb⟩
  | succ n ih =>
    obtain ⟨⟨ih1, ih2⟩, ih3⟩ := ih
    show ((step env n (runSteps env n s)).model.Dc = _ ∧ _) ∧ _
    rw [step_spec]
    show ((acceptreject env n _ _ _ _).2.Dc
        = (acceptreject env n _ _ _ _).2.evalLog.getLastD 0
      ∧ (acceptreject env n _ _ _ _).2.evalLog ≠ [])
      ∧ ((acceptreject env n _ _ _ _).2.Dc = env.qstart
        ∨ (env.lower < (acceptreject env n _ _ _ _).2.Dc
          ∧ (acceptreject env n _ _ _ _).2.Dc < env.upper))
    rw [acceptreject_spec]
    split_ifs with h1 h2
    · refine ⟨⟨?_, ?_⟩, Or.inr h1⟩
      · show _ = (_ ++ [_]).getLastD 0
        rw [getLastD_concat']
      · simp
    · refine ⟨⟨?_, ?_⟩, Or.inr h1⟩
      · show _ = (_ ++ [_]).getLastD 0
        rw [getLastD_concat']
      · simp
    · exact ⟨⟨ih1, ih2⟩, ih3⟩

/-- Claim C1: for every iteration whose proposal passes the bound check,
the sampler evaluates the sum of squares of the proposal via the
evaluator (logging one forward-model call on the candidate), and accepts
exactly when `min(0, 0.5 * (SSqprev - SSq_new) / std2_current)` exceeds
the logarithm of the fresh uniform draw, with `std2_current` the most
recent noise-variance entry. -/
theorem claim_C1 (env : Env) (i : ℕ) (s : LoopState)
    (h : env.lower < proposalAt env i s ∧ proposalAt env i s < env.upper) :
    (step env i s).model.evalLog = s.model.evalLog ++ [proposalAt env i s]
    ∧ (stepAccept env i s = true ↔
        env.logu i < min 0 (((1 : ℚ) / 2) *
          (s.SSqprev - SSqOf env (proposalAt env i s)) / s.std2.getLastD 0)) := by
  constructor
  · rw [step_spec]
    show (acceptreject env i s.model (proposalAt env i s) s.SSqprev
      (s.std2.getLastD 0)).2.evalLog = _
    rw [acceptreject_spec, if_pos h]
    split_ifs <;> rfl
  · unfold stepAccept
    rw [acceptreject_spec, if_pos h, min_comm]
    split_ifs with h2
    · simpa using h2
    · simpa using h2

unseal Rat.mul Rat.add Rat.sub Rat.inv in
/-- Witness for C1 at a concrete in-bounds proposal. -/
theorem claim_C1_witness :
    (envA.lower < proposalAt envA 0 sA ∧ proposalAt envA 0 sA < envA.upper)
    ∧ ((step envA 0 sA).model.evalLog = sA.model.evalLog ++ [proposalAt envA 0 sA]
      ∧ (stepAccept envA 0 sA = true ↔
          envA.logu 0 < min 0 (((1 : ℚ) / 2) *
            (sA.SSqprev - SSqOf envA (proposalAt envA 0 sA)) / sA.std2.getLastD 0))) :=
  ⟨by decide, claim_C1 envA 0 sA (by decide)⟩

/-- Claim C2, amended: at exactly the iterations with
`(i + 1) % adapt_interval == 0` the code computes the candidate
`C = 2.38^2 / len(qpriors) * cov(last adapt_interval chain entries)`
(not `2.38^2 / d` with `d` the number of calibrated parameters); when `C`
is positive-definite it stores the CHOLESKY FACTOR of `C` (numeric value
`Real.sqrt C`, which subsequent draws receive as their covariance), and
when the factorization fails it retains the previous covariance
unchanged; it never turns a positive-definite covariance state into a
non-positive-definite one. -/
theorem claim_C2 (env : Env) (i : ℕ) (s : LoopState) (hk : 0 < env.adapt_interval) :
    ((i + 1) % env.adapt_interval ≠ 0 → (step env i s).Vold = s.Vold)
    ∧ ((i + 1) % env.adapt_interval = 0 →
        (0 < adaptC env (step env i s).chain →
            (step env i s).Vold = CovState.chol (adaptC env (step env i s).chain)
            ∧ 0 < Real.sqrt ((adaptC env (step env i s).chain : ℚ) : ℝ))
        ∧ (¬ 0 < adaptC env (step env i s).chain → (step env i s).Vold = s.Vold)
        ∧ (CovPD s.Vold → CovPD (step env i s).Vold)) := by
  constructor
  · intro hmod
    have hmod2 : ((i + 1) % env.adapt_interval == 0) = false := by simpa using hmod
    simp only [step_spec, adaptC, hmod2, Bool.false_eq_true, if_false]
  · intro hmod
    have hmod2 : ((i + 1) % env.adapt_interval == 0) = true := by simpa using hmod
    simp only [step_spec, adaptC, hmod2, if_true]
    refine ⟨?_, ?_, ?_⟩
    · intro hC
      rw [if_pos hC]
      exact ⟨rfl, Real.sqrt_pos.mpr (by exact_mod_cast hC)⟩
    · intro hC
      rw [if_neg hC]
    · intro hPD
      exact covPD_ite s.Vold _ hPD

unseal Rat.mul Rat.add Rat.sub Rat.inv in
/-- Witness for C2 at a concrete adaptation checkpoint. -/
theorem claim_C2_witness :
    0 < envC2.adapt_interval
    ∧ (((1 + 1) % envC2.adapt_interval ≠ 0 → (step envC2 1 sA).Vold = sA.Vold)
      ∧ ((1 + 1) % envC2.adapt_interval = 0 →
          (0 < adaptC envC2 (step envC2 1 sA).chain →
              (step envC2 1 sA).Vold = CovState.chol (adaptC envC2 (step envC2 1 sA).chain)
              ∧ 0 < Real.sqrt ((adaptC envC2 (step envC2 1 sA).chain : ℚ) : ℝ))
          ∧ (¬ 0 < adaptC envC2 (step envC2 1 sA).chain → (step envC2 1 sA).Vold = sA.Vold)
          ∧ (CovPD sA.Vold → CovPD (step envC2 1 sA).Vold))) :=
  ⟨by decide, claim_C2 envC2 1 sA (by decide)⟩

unseal Rat.mul Rat.add Rat.sub Rat.inv in
/-- Counterexample to C2 as stated: in a concrete run (window `[0, 0, 6]`
with empirical covariance 12 at the checkpoint after iteration 2), the
stored covariance state is the Cholesky marker for `14161/625`, whose
numeric value `Real.sqrt (14161/625)` is NOT the matrix
`2.38^2 / d * 12` (with `d = 1` calibrated parameter) that the claim says
subsequent draws use; the scaled matrix `14161/625` itself also differs
from `2.38^2 / 1 * 12` because the code divides by `len(qpriors) = 3`. -/
theorem claim_C2_cex :
    (2 + 1) % envX.adapt_interval = 0
    ∧ (stateAt envX 3).map (fun s => s.Vold) = some (CovState.chol (14161/625))
    ∧ (stateAt envX 3).map (fun s => lastN envX.adapt_interval s.chain) = some [0, 0, 6]
    ∧ sampleVar [0, 0, 6] = 12
    ∧ ((14161 : ℚ) / 625) ≠ ((238 : ℚ) / 100) ^ 2 / 1 * 12
    ∧ Real.sqrt ((14161 : ℝ) / 625) ≠ ((238 : ℝ) / 100) ^ 2 / 1 * 12 := by
  refine ⟨by decide, by decide, by decide, by decide, by decide, ?_⟩
  have h : ((14161 : ℝ) / 625) = ((119 : ℝ) / 25) ^ 2 := by norm_num
  rw [h, Real.sqrt_sq (by norm_num : (0 : ℝ) ≤ (119 : ℝ) / 25)]
  norm_num

/-- Claim C3: whenever an iteration rejects (by bound failure or by the
acceptance test), the appended chain entry equals the previous last
entry, and `SSqprev` is unchanged. -/
theorem claim_C3 (env : Env) (i : ℕ) (s : LoopState) (h : stepAccept env i s = false) :
    (step env i s).chain = s.chain ++ [s.chain.getLastD 0]
    ∧ (step env i s).SSqprev = s.SSqprev := by
  have hb : (acceptreject env i s.model (proposalAt env i s) s.SSqprev
      (s.std2.getLastD 0)).1.1 = false := h
  constructor
  · rw [step_spec]
    simp only [hb, Bool.false_eq_true, if_false]
  · rw [step_spec]
    exact acceptreject_false_SSq env i s.model (proposalAt env i s) s.SSqprev
      (s.std2.getLastD 0) hb

unseal Rat.mul Rat.add Rat.sub Rat.inv in
/-- Witness for C3 at a concrete rejected iteration. -/
theorem claim_C3_witness :
    stepAccept envW 0 sA = false
    ∧ ((step envW 0 sA).chain = sA.chain ++ [sA.chain.getLastD 0]
      ∧ (step envW 0 sA).SSqprev = sA.SSqprev) :=
  ⟨by decide, claim_C3 envW 0 sA (by decide)⟩

/-- Claim C4: a proposal at or beyond a bound (the check is strict on
both sides) is rejected immediately, the evaluator and forward model are
not invoked (the model state, including its evaluation log, is
untouched), and the previous entry is repeated. -/
theorem claim_C4 (env : Env) (i : ℕ) (s : LoopState)
    (h : proposalAt env i s ≤ env.lower ∨ env.upper ≤ proposalAt env i s) :
    stepAccept env i s = false
    ∧ (step env i s).model = s.model
    ∧ (step env i s).chain = s.chain ++ [s.chain.getLastD 0] := by
  have hnot : ¬ (env.lower < proposalAt env i s ∧ proposalAt env i s < env.upper) := by
    rcases h with h | h
    · exact fun hc => absurd hc.1 (not_lt.mpr h)
    · exact fun hc => absurd hc.2 (not_lt.mpr h)
  have hb : stepAccept env i s = false := by
    unfold stepAccept
    rw [acceptreject_spec, if_neg hnot]
  refine ⟨hb, ?_, ?_⟩
  · rw [step_spec]
    show (acceptreject env i s.model (proposalAt env i s) s.SSqprev (s.std2.getLastD 0)).2 = s.model
    rw [acceptreject_spec, if_neg hnot]
  · rw [step_spec]
    simp only [show (acceptreject env i s.model (proposalAt env i s) s.SSqprev
      (s.std2.getLastD 0)).1.1 = false from hb, Bool.false_eq_true, if_false]

unseal Rat.mul Rat.add Rat.sub Rat.inv in
/-- Witness for C4 at a concrete out-of-bounds proposal. -/
theorem claim_C4_witness :
    (proposalAt envW 0 sA ≤ envW.lower ∨ envW.upper ≤ proposalAt envW 0 sA)
    ∧ (stepAccept envW 0 sA = false
      ∧ (step envW 0 sA).model = sA.model
      ∧ (step envW 0 sA).chain = sA.chain ++ [sA.chain.getLastD 0]) :=
  ⟨by decide, claim_C4 envW 0 sA (by decide)⟩

/-- Claim C5: every iteration appends to the noise-variance series the
draw `1 / Gamma(a, scale = 1/b)` with `a = 0.5 * (n0 + n_output)` and
`b = 0.5 * (n0 * std2_prev + SSqprev)`, unconditionally (accepted or
rejected), where `SSqprev` after the commit equals the sum of squares of
the current (new or repeated) chain head. -/
theorem claim_C5 (env : Env) (i : ℕ) (s : LoopState)
    (hs : s.SSqprev = SSqOf env (s.chain.getLastD 0)) :
    (step env i s).std2 = s.std2 ++
      [1 / env.gdraw i (((1 : ℚ) / 2) * (n0 + (env.data.length : ℚ)))
        (1 / (((1 : ℚ) / 2) * (n0 * s.std2.getLastD 0 + (step env i s).SSqprev)))]
    ∧ (step env i s).SSqprev = SSqOf env ((step env i s).chain.getLastD 0) := by
  constructor
  · rfl
  · rw [step_spec]
    show (acceptreject env i s.model (proposalAt env i s) s.SSqprev (s.std2.getLastD 0)).1.2 = _
    cases hacc : (acceptreject env i s.model (proposalAt env i s) s.SSqprev
        (s.std2.getLastD 0)).1.1 with
    | true =>
      rw [acceptreject_true_SSq env i s.model _ _ _ hacc]
      simp only [hacc, if_true, getLastD_concat']
    | false =>
      rw [acceptreject_false_SSq env i s.model _ _ _ hacc, hs]
      simp only [hacc, Bool.false_eq_true, if_false, getLastD_concat']

unseal Rat.mul Rat.add Rat.sub Rat.inv in
/-- Witness for C5 at a concrete iteration. -/
theorem claim_C5_witness :
    sA.SSqprev = SSqOf envW (sA.chain.getLastD 0)
    ∧ ((step envW 0 sA).std2 = sA.std2 ++
        [1 / envW.gdraw 0 (((1 : ℚ) / 2) * (n0 + (envW.data.length : ℚ)))
          (1 / (((1 : ℚ) / 2) * (n0 * sA.std2.getLastD 0 + (step envW 0 sA).SSqprev)))]
      ∧ (step envW 0 sA).SSqprev = SSqOf envW ((step envW 0 sA).chain.getLastD 0)) :=
  ⟨by decide, claim_C5 envW 0 sA (by decide)⟩

/-- Claim C6, amended: initialization computes the sensitivity column
`(acc_j - acc0) / (Dc0 * (1 + 1e-6) * 1e-6)` — dividing by the already
perturbed parameter value, not by `q0 * 1e-6` — sets the initial noise
variance to `sum((acc0 - data)^2) / (n_output - len(qpriors))` — with the
length of the prior container (3 for a name/lower/upper triple), not the
number `d` of calibrated parameters — and sets
`Vstart = std2_0 * inverse(X^T X)`. -/
theorem claim_C6 (env : Env) (s : LoopState) (h : initState env = some s) :
    s.Vold = CovState.start (std2initOf env * (xtxOf env)⁻¹)
    ∧ s.std2 = [std2initOf env]
    ∧ s.SSqprev = SSqOf env env.qstart
    ∧ sensXOf env = List.zipWith
        (fun a b => (a - b) / (env.modelDc0 * (1 + 1 / 1000000) * (1 / 1000000)))
        (env.eval (env.modelDc0 * (1 + 1 / 1000000))) (env.eval env.modelDc0)
    ∧ std2initOf env =
        (List.zipWith (fun a b => (a - b) ^ 2) (env.eval env.modelDc0) env.data).sum /
          (((env.eval env.modelDc0).length : ℚ) - (env.nqp : ℚ)) := by
  have h0 := initState_eq env s h
  refine ⟨by rw [h0], by rw [h0], by rw [h0], rfl, rfl⟩

unseal Rat.mul Rat.add Rat.sub Rat.inv in
/-- Witness for C6 at a concrete successful initialization. -/
theorem claim_C6_witness :
    initState envW = some sInit
    ∧ (sInit.Vold = CovState.start (std2initOf envW * (xtxOf envW)⁻¹)
      ∧ sInit.std2 = [std2initOf envW]
      ∧ sInit.SSqprev = SSqOf envW envW.qstart
      ∧ sensXOf envW = List.zipWith
          (fun a b => (a - b) / (envW.modelDc0 * (1 + 1 / 1000000) * (1 / 1000000)))
          (envW.eval (envW.modelDc0 * (1 + 1 / 1000000))) (envW.eval envW.modelDc0)
      ∧ std2initOf envW =
          (List.zipWith (fun a b => (a - b) ^ 2) (envW.eval envW.modelDc0) envW.data).sum /
            (((envW.eval envW.modelDc0).length : ℚ) - (envW.nqp : ℚ))) :=
  ⟨by decide, claim_C6 envW sInit (by decide)⟩

unseal Rat.mul Rat.add Rat.sub Rat.inv in
/-- Counterexample to C6 as stated: in a concrete configuration whose
model start equals the chain start, the computed sensitivity column
differs from the claimed `(acc_j - acc0) / (q0 * 1e-6)` and the computed
initial noise variance differs from the claimed
`sum((acc0 - data)^2) / (n_output - d)` with `d = 1`. -/
theorem claim_C6_cex :
    sensXOf envY ≠ sensX_claim envY ∧ std2initOf envY ≠ std2init_claim envY := by
  constructor
  · decide
  · decide

/-- Claim C7: a successful run returns a Chain of exactly
`nsamples + 1 - nburn` entries and a noise-variance series of exactly
`nsamples + 1 - nburn` entries, with `nburn = nsamples / 2` (integer
half, the only behavior the constructor implements). -/
theorem claim_C7 (env : Env) (out : List ℚ × List ℚ) (h : sample env = some out) :
    out.1.length = env.nsamples + 1 - env.nsamples / 2
    ∧ out.2.length = env.nsamples + 1 - env.nsamples / 2 := by
  unfold sample sampleState stateAt at h
  cases hini : initState env with
  | none =>
    rw [hini] at h
    simp at h
  | some s0 =>
    rw [hini] at h
    simp only [Option.map_some', Option.some_bind] at h
    by_cases hn : env.nsamples = 0
    · rw [if_pos hn] at h
      exact absurd h (by simp)
    rw [if_neg hn] at h
    have hout := (Option.some.inj h).symm
    have h0 := initState_eq env s0 hini
    have hc : s0.chain.length = 1 := by simp [h0]
    have hs : s0.std2.length = 1 := by simp [h0]
    constructor
    · rw [hout]
      show ((runSteps env env.nsamples s0).chain.drop (nburn env)).length = _
      rw [List.length_drop, runSteps_chain_length, hc, nburn]
      omega
    · rw [hout]
      show ((runSteps env env.nsamples s0).std2.drop (nburn env)).length = _
      rw [List.length_drop, runSteps_std2_length, hs, nburn]
      omega

unseal Rat.mul Rat.add Rat.sub Rat.inv in
/-- Witness for C7 on a concrete two-iteration run. -/
theorem claim_C7_witness :
    sample envW = some ([0, 0], [1/2, 1/2])
    ∧ (([0, 0] : List ℚ).length = envW.nsamples + 1 - envW.nsamples / 2
      ∧ ([1/2, 1/2] : List ℚ).length = envW.nsamples + 1 - envW.nsamples / 2) :=
  ⟨by decide, claim_C7 envW ([0, 0], [1/2, 1/2]) (by decide)⟩

/-- Claim C8, amended: PROVIDED the starting value lies strictly within
the bounds (the code never validates it), every entry of the returned
trimmed Chain lies strictly within `(lower, upper)`. -/
theorem claim_C8 (env : Env) (out : List ℚ × List ℚ)
    (hq : env.lower < env.qstart ∧ env.qstart < env.upper)
    (h : sample env = some out) :
    ∀ x ∈ out.1, env.lower < x ∧ x < env.upper := by
  unfold sample sampleState stateAt at h
  cases hini : initState env with
  | none =>
    rw [hini] at h
    simp at h
  | some s0 =>
    rw [hini] at h
    simp only [Option.map_some', Option.some_bind] at h
    by_cases hn : env.nsamples = 0
    · rw [if_pos hn] at h
      exact absurd h (by simp)
    rw [if_neg hn] at h
    have hout := (Option.some.inj h).symm
    have h0 := initState_eq env s0 hini
    have hbase : ∀ x ∈ s0.chain, env.lower < x ∧ x < env.upper := by
      rw [h0]
      intro x hx
      have := List.mem_singleton.mp hx
      subst this
      exact hq
    have hne : s0.chain ≠ [] := by
      rw [h0]
      simp
    intro x hx
    rw [hout] at hx
    exact chain_bounds_runSteps env env.nsamples s0 hbase hne x
      (List.drop_subset _ _ hx)

unseal Rat.mul Rat.add Rat.sub Rat.inv in
/-- Witness for C8 on a concrete run with an in-bounds start. -/
theorem claim_C8_witness :
    (envW.lower < envW.qstart ∧ envW.qstart < envW.upper)
    ∧ sample envW = some ([0, 0], [1/2, 1/2])
    ∧ (∀ x ∈ ([0, 0] : List ℚ), envW.lower < x ∧ x < envW.upper) :=
  ⟨by decide, by decide, claim_C8 envW ([0, 0], [1/2, 1/2]) (by decide) (by decide)⟩

unseal Rat.mul Rat.add Rat.sub Rat.inv in
/-- Counterexample to C8 as stated: with the out-of-bounds start `5` and
bounds `(1, 2)`, the run completes and the returned Chain `[5, 5]`
violates the bounds. -/
theorem claim_C8_cex :
    (sample envZ).map Prod.fst = some [5, 5]
    ∧ ¬ (envZ.lower < 5 ∧ (5 : ℚ) < envZ.upper) := by
  constructor
  · decide
  · decide

/-- Claim C10, amended: every evaluator call overwrites the shared model
parameter with the candidate and appends it to the evaluation log, and
nothing ever restores it: after the loop, the model parameter equals the
most recently evaluated candidate (the last entry of the evaluation
log).  That candidate is the un-bound-checked chain start when no
proposal was ever in bounds — in which case it IS the original starting
value and need not lie within the bounds — and otherwise the last
in-bounds proposal evaluated (possibly a rejected one), which lies
strictly within the bounds. -/
theorem claim_C10 (env : Env) :
    ((sampleState env).map (fun s => s.model.Dc)
      = (sampleState env).map (fun s => s.model.evalLog.getLastD 0))
    ∧ (sampleState env).elim True
        (fun s => s.model.Dc = env.qstart
          ∨ (env.lower < s.model.Dc ∧ s.model.Dc < env.upper))
    ∧ (∀ m q, (SSqcalc env m q).1.Dc = q
        ∧ (SSqcalc env m q).1.evalLog = m.evalLog ++ [q]) := by
  refine ⟨?_, ?_, fun m q => ⟨rfl, rfl⟩⟩
  · unfold sampleState stateAt
    cases hini : initState env with
    | none => rfl
    | some s0 =>
      simp only [Option.map_some']
      have h0 := initState_eq env s0 hini
      have hDc : s0.model.Dc = s0.model.evalLog.getLastD 0 := by
        rw [h0]
        rfl
      have hne : s0.model.evalLog ≠ [] := by
        rw [h0]
        simp
      have hb : s0.model.Dc = env.qstart
          ∨ (env.lower < s0.model.Dc ∧ s0.model.Dc < env.upper) :=
        Or.inl (by rw [h0])
      rw [(modelDc_runSteps env env.nsamples s0 hDc hne hb).1.1]
  · unfold sampleState stateAt
    cases hini : initState env with
    | none => trivial
    | some s0 =>
      have h0 := initState_eq env s0 hini
      have hDc : s0.model.Dc = s0.model.evalLog.getLastD 0 := by
        rw [h0]
        rfl
      have hne : s0.model.evalLog ≠ [] := by
        rw [h0]
        simp
      have hb : s0.model.Dc = env.qstart
          ∨ (env.lower < s0.model.Dc ∧ s0.model.Dc < env.upper) :=
        Or.inl (by rw [h0])
      exact (modelDc_runSteps env env.nsamples s0 hDc hne hb).2

unseal Rat.mul Rat.add Rat.sub Rat.inv in
/-- Witness for C10 on a concrete run whose last evaluated candidate is
a rejected in-bounds proposal distinct from the start. -/
theorem claim_C10_witness :
    ((sampleState envR).map (fun s => s.model.Dc)
      = (sampleState envR).map (fun s => s.model.evalLog.getLastD 0))
    ∧ (sampleState envR).elim True
        (fun s => s.model.Dc = envR.qstart
          ∨ (envR.lower < s.model.Dc ∧ s.model.Dc < envR.upper))
    ∧ (sampleState envR).map (fun s => s.model.Dc) = some 5
    ∧ (5 : ℚ) ≠ envR.qstart :=
  ⟨(claim_C10 envR).1, (claim_C10 envR).2.1, by decide, by decide⟩

unseal Rat.mul Rat.add Rat.sub Rat.inv in
/-- Counterexample to C10 as stated: in a run where no proposal is ever
in bounds, the final model parameter is the un-bound-checked starting
value itself — here `model.Dc = 5 = qstart` with bounds `(1, 2)` — so it
is not an in-bounds candidate and it IS the original starting value,
contrary to the claim. -/
theorem claim_C10_cex :
    (sampleState envZ).map (fun s => s.model.Dc) = some 5
    ∧ envZ.qstart = 5
    ∧ ¬ (envZ.lower < 5 ∧ (5 : ℚ) < envZ.upper) := by
  refine ⟨by decide, by decide, by decide⟩
